import Mathlib

/-!
# Verification of the swmmtoolbox extraction core

Shallow embedding of `swmmtoolbox/swmmtoolbox.py` (class `SwmmExtract`,
functions `extract` and `fast_extract`).

Modelling conventions:
* The binary output file is modelled as a total byte source `f : Nat → Nat`
  (absolute byte offset to byte value).  Both extraction paths interpret a
  value as the 4 raw bytes at its offset (struct `'f'` unpack and the numpy
  `float32` view both use native byte order), so two reads return the same
  float exactly when they read the same 4 bytes; values are therefore
  represented by their byte quadruples.
* Machine integers are `Nat` (sizes, counts, offsets are nonnegative in every
  reachable state); the trailer fields of the open-time validation are `Int`
  because `struct.unpack('6i', ...)` is signed and the sign matters there.
* Python exceptions become `Except`/`Option` results.
-/

/-- `self.RECORDSIZE = 4` (swmmtoolbox.py line 158). -/
def RECORDSIZE : Nat := 4

/-- The magic number constant `516114522` checked at both ends of the file. -/
def MAGICNUM : Int := 516114522

/-- The six signed 32-bit integers of the file trailer, in the order they are
unpacked at swmmtoolbox.py lines 164-169. -/
structure Trailer where
  namesstartpos : Int
  offset0 : Int
  startpos : Int
  swmm_nperiods : Int
  errcode : Int
  magic2 : Int
deriving DecidableEq, Repr

/-- The distinct fatal open-time failures of `SwmmExtract.__init__`. -/
inductive OpenError where
  | badMagic1 : OpenError
  | badMagic2 : OpenError
  | badErrcode : OpenError
  | zeroPeriods : OpenError
deriving DecidableEq, Repr

/-- The open-time validation of `SwmmExtract.__init__` (swmmtoolbox.py lines
174-197): magic number at the start, magic number in the trailer, stored error
code, stored period count.  Each failed test raises `ValueError`; the checks
are performed in source order. -/
def open_validate (magic1 : Int) (tr : Trailer) : Except OpenError Unit :=
  if magic1 ≠ MAGICNUM then .error .badMagic1
  else if tr.magic2 ≠ MAGICNUM then .error .badMagic2
  else if tr.errcode ≠ 0 then .error .badErrcode
  else if tr.swmm_nperiods = 0 then .error .zeroPeriods
  else .ok ()

/-- The geometry fields of a `SwmmExtract` session, using the attribute names
of the Python class.  `startpos` is the records-start offset from the trailer,
reinterpreted as `Nat` (it is a file position). -/
structure Geometry where
  swmm_nsubcatch : Nat
  swmm_nnodes : Nat
  swmm_nlinks : Nat
  swmm_npolluts : Nat
  swmm_nsubcatchvars : Nat
  nnodevars : Nat
  nlinkvars : Nat
  nsystemvars : Nat
  startpos : Nat
  swmm_nperiods : Nat
deriving DecidableEq, Repr

/-- `self.bytesperperiod` as computed at swmmtoolbox.py lines 323-328. -/
def Geometry.bytesperperiod (g : Geometry) : Nat :=
  RECORDSIZE * (2 +
    g.swmm_nsubcatch * g.swmm_nsubcatchvars +
    g.swmm_nnodes * g.nnodevars +
    g.swmm_nlinks * g.nlinkvars +
    g.nsystemvars)

/-- The fixed type order of the record payload with the per-type
(count, variable count) pairs; the system type has a single implicit item.
This is the spec-side description of the record geometry (spec section 3,
"Period Record"), used to state the `bytesperperiod` invariant. -/
def typeOrderCounts (g : Geometry) : List (Nat × Nat) :=
  [(g.swmm_nsubcatch, g.swmm_nsubcatchvars),
   (g.swmm_nnodes, g.nnodevars),
   (g.swmm_nlinks, g.nlinkvars),
   (1, g.nsystemvars)]

/-- The per-type byte base of `fast_extract`'s `typemap` dictionary
(swmmtoolbox.py lines 664-672).  The dictionary has keys 0, 1, 2, 4 only;
other keys are unreachable in the program (they would raise `KeyError`) and
are mapped to 0 here. -/
def typemap (g : Geometry) : Nat → Nat
  | 0 => 0
  | 1 => RECORDSIZE * g.swmm_nsubcatch * g.swmm_nsubcatchvars
  | 2 => RECORDSIZE * g.swmm_nsubcatch * g.swmm_nsubcatchvars +
         RECORDSIZE * g.swmm_nnodes * g.nnodevars
  | 4 => RECORDSIZE * g.swmm_nsubcatch * g.swmm_nsubcatchvars +
         RECORDSIZE * g.swmm_nnodes * g.nnodevars +
         RECORDSIZE * g.swmm_nlinks * g.nlinkvars
  | _ => 0

/-- The per-type variable count of `fast_extract`'s `varmap` dictionary
(swmmtoolbox.py lines 673-678); same convention for unreachable keys. -/
def varmap (g : Geometry) : Nat → Nat
  | 0 => g.swmm_nsubcatchvars
  | 1 => g.nnodevars
  | 2 => g.nlinkvars
  | 4 => g.nsystemvars
  | _ => 0

/-- Per-type item count: subcatchment/node/link counts from the header; the
system block holds exactly one implicit item (spec section 3 takes the system
count as 1). -/
def itemcount (g : Geometry) : Nat → Nat
  | 0 => g.swmm_nsubcatch
  | 1 => g.swmm_nnodes
  | 2 => g.swmm_nlinks
  | 4 => 1
  | _ => 0

/-- Absolute byte offset of the value read by
`SwmmExtract.get_swmm_results` (swmmtoolbox.py lines 374-399), transcribing
the control flow exactly: a first separate test for item type 0, then an
`if`/`elif`/`elif` chain for item types 1, 2, 4. -/
def value_offset (g : Geometry) (itemtype itemindex variableindex period : Nat) : Nat :=
  let date_offset := g.startpos + period * g.bytesperperiod
  let offset := date_offset + 2 * RECORDSIZE
  let offset := if itemtype = 0 then
      offset + RECORDSIZE * (itemindex * g.swmm_nsubcatchvars)
    else offset
  let offset := if itemtype = 1 then
      offset + RECORDSIZE * (g.swmm_nsubcatch * g.swmm_nsubcatchvars +
        itemindex * g.nnodevars)
    else if itemtype = 2 then
      offset + RECORDSIZE * (g.swmm_nsubcatch * g.swmm_nsubcatchvars +
        g.swmm_nnodes * g.nnodevars +
        itemindex * g.nlinkvars)
    else if itemtype = 4 then
      offset + RECORDSIZE * (g.swmm_nsubcatch * g.swmm_nsubcatchvars +
        g.swmm_nnodes * g.nnodevars +
        g.swmm_nlinks * g.nlinkvars)
    else offset
  offset + RECORDSIZE * variableindex

/-- Spec-side type base: `recordSize * Σ count[t]*varCount[t]` over the types
preceding `type` in the fixed order {subcatchment, node, link, system}
(spec section 4.3). -/
def specTypeBase (g : Geometry) (itemtype : Nat) : Nat :=
  let pre : List (Nat × Nat) :=
    match itemtype with
    | 0 => (typeOrderCounts g).take 0
    | 1 => (typeOrderCounts g).take 1
    | 2 => (typeOrderCounts g).take 2
    | 4 => (typeOrderCounts g).take 3
    | _ => []
  RECORDSIZE * (pre.map (fun pr => pr.1 * pr.2)).sum

/-- Spec-side value offset formula (spec section 4.3):
`periodBase + 2*recordSize + typeBase + itemOffset + varOffset`. -/
def specValueOffset (g : Geometry) (itemtype itemindex variableindex period : Nat) : Nat :=
  g.startpos + period * g.bytesperperiod + 2 * RECORDSIZE +
    specTypeBase g itemtype +
    itemindex * varmap g itemtype * RECORDSIZE +
    variableindex * RECORDSIZE

/-- Reading a 4-byte value (one record) from the byte source. -/
def read4 (f : Nat → Nat) (o : Nat) : List Nat :=
  [f o, f (o + 1), f (o + 2), f (o + 3)]

/-- Reading the 8-byte date field from the byte source. -/
def read8 (f : Nat → Nat) (o : Nat) : List Nat :=
  [f o, f (o + 1), f (o + 2), f (o + 3), f (o + 4), f (o + 5), f (o + 6), f (o + 7)]

/-- The failures that the extraction paths can signal: the item-type guard and
the name lookup of `get_swmm_results`/`name_check` (both `ValueError` in
Python), and the pandas shape mismatch raised by `pd.DataFrame` in
`fast_extract` when the data width differs from the heading count. -/
inductive SwmmError where
  | typeErr : SwmmError
  | nameErr : SwmmError
  | shapeErr : SwmmError
deriving DecidableEq, Repr

/-- `SwmmExtract.get_swmm_results` (swmmtoolbox.py lines 363-403).
`names` is the `self.names` dictionary (object-name table per type code);
name resolution is `list.index`, i.e. the first matching position.  The
function returns the 8 date bytes and the 4 value bytes it reads.  Note that
`variableindex` is never validated. -/
def get_swmm_results (g : Geometry) (names : Nat → List String) (f : Nat → Nat)
    (itemtype : Nat) (name : String) (variableindex period : Nat) :
    Except SwmmError (List Nat × List Nat) :=
  if itemtype ∉ ([0, 1, 2, 4] : List Nat) then .error .typeErr
  else
    match (names itemtype).findIdx? (· == name) with
    | none => .error .nameErr
    | some itemindex =>
      let date_offset := g.startpos + period * g.bytesperperiod
      let date := read8 f date_offset
      .ok (date, read4 f (value_offset g itemtype itemindex variableindex period))

/-- The seconds-of-day rounding correction of `extract`
(swmmtoolbox.py lines 630-635): two separate tests on `seconds % 10`
guarded by `extra != 0`. -/
def adjust_seconds (s : Nat) : Nat :=
  let extra := s % 10
  if extra ≠ 0 then
    let s1 := if extra = 9 then s + 1 else s
    if extra = 1 then s1 - 1 else s1
  else s

/-- `SwmmExtract.update_var_code` operates on this mutable session state:
the variable-code label tables (`self.varcode`, contiguous integer keys
modelled positionally) and the object-name tables (`self.names`). -/
structure CatalogState where
  varcode0 : List String
  varcode1 : List String
  varcode2 : List String
  varcode4 : List String
  names0 : List String
  names1 : List String
  names2 : List String
  names3 : List String
  names4 : List String
deriving DecidableEq, Repr

/-- `SwmmExtract.update_var_code` (swmmtoolbox.py lines 330-335): appends the
pollutant names (`self.names[3]`) to `self.varcode[typenumber]` under fresh
keys continuing from the current length.  The `varcode` dictionary has keys
0, 1, 2, 4; a call with any other type number would raise `KeyError` and is
unreachable from the claims considered, modelled as the identity. -/
def update_var_code (c : CatalogState) (typenumber : Nat) : CatalogState :=
  match typenumber with
  | 0 => { c with varcode0 := c.varcode0 ++ c.names3 }
  | 1 => { c with varcode1 := c.varcode1 ++ c.names3 }
  | 2 => { c with varcode2 := c.varcode2 ++ c.names3 }
  | 4 => { c with varcode4 := c.varcode4 ++ c.names3 }
  | _ => c

/-- Relative (within-payload) byte offset of a resolved request, exactly as
`fast_extract` computes `all_offsets = type_offsets + item_offsets +
var_offsets` (swmmtoolbox.py lines 694-697). -/
def fastOffset (g : Geometry) (t itemindex varix : Nat) : Nat :=
  typemap g t + itemindex * varmap g t * RECORDSIZE + varix * RECORDSIZE

/-- A resolved request: (type code, item index, variable index). -/
abbrev Req := Nat × Nat × Nat

/-- Relative offset of a resolved request triple. -/
def reqOffset (g : Geometry) (r : Req) : Nat :=
  fastOffset g r.1 r.2.1 r.2.2

/-- A resolved request is valid when its type code is one of the four record
types, its item index is within the type's item count (the system block has a
single item) and its variable index is within the type's declared variable
count. -/
def ValidReq (g : Geometry) (r : Req) : Prop :=
  r.1 ∈ ([0, 1, 2, 4] : List Nat) ∧ r.2.1 < itemcount g r.1 ∧ r.2.2 < varmap g r.1

instance (g : Geometry) (r : Req) : Decidable (ValidReq g r) := by
  unfold ValidReq; infer_instance

/-- One byte of the boolean selection mask of `fast_extract`
(swmmtoolbox.py lines 698-702): byte `b` is selected when it falls in the
4-byte block of some requested offset. -/
def maskBit (offs : List Nat) (b : Nat) : Bool :=
  offs.any (fun r => decide (r ≤ b) && decide (b < r + 4))

/-- The boolean mask `bool_mask` of `fast_extract`: it is allocated with
`np.zeros(obj.bytesperperiod - 2)` (swmmtoolbox.py line 698) — note the
literal `- 2`, not `- 2*RECORDSIZE` — and then the 4 bytes of every requested
offset are set.  The mask depends only on the geometry and the requested
offsets, not on the period. -/
def boolMask (g : Geometry) (offs : List Nat) : List Bool :=
  (List.range (g.bytesperperiod - 2)).map (maskBit offs)

/-- Absolute byte offset of the start of the post-date payload of a period:
`offsets[p] = startpos + p*bytesperperiod + 2*RECORDSIZE`
(swmmtoolbox.py lines 692-693). -/
def payloadStart (g : Geometry) (p : Nat) : Nat :=
  g.startpos + p * g.bytesperperiod + 2 * RECORDSIZE

/-- The bytes gathered for one period by `fast_extract`
(swmmtoolbox.py lines 704-719): the masked bytes of the period's window, in
ascending offset order.  The window of period `p` spans the `bytesperperiod-2`
bytes starting at the payload (the memory-map alignment padding cancels
against the padded mask and is dropped here). -/
def gatherPeriod (g : Geometry) (f : Nat → Nat) (offs : List Nat) (p : Nat) : List Nat :=
  ((List.range (g.bytesperperiod - 2)).filter (maskBit offs)).map
    (fun b => f (payloadStart g p + b))

/-- Grouping the gathered bytes into 4-byte records, as
`.reshape(-1, obj.RECORDSIZE)` does (swmmtoolbox.py line 717). -/
def chunk4 {α : Type} : List α → List (List α)
  | [] => []
  | a :: b :: c :: d :: rest => [a, b, c, d] :: chunk4 rest
  | l => [l]

/-- Lexicographic order on resolved request triples: the sort key of
`record_order = ... .sort_values(by=[0,1,2])` (swmmtoolbox.py lines 725-726). -/
def tripLe (a b : Req) : Prop :=
  a.1 < b.1 ∨ (a.1 = b.1 ∧ (a.2.1 < b.2.1 ∨ (a.2.1 = b.2.1 ∧ a.2.2 ≤ b.2.2)))

/-- Strict lexicographic order on resolved request triples. -/
def tripLt (a b : Req) : Prop :=
  a.1 < b.1 ∨ (a.1 = b.1 ∧ (a.2.1 < b.2.1 ∨ (a.2.1 = b.2.1 ∧ a.2.2 < b.2.2)))

instance : DecidableRel tripLe := by
  intro a b; unfold tripLe; infer_instance

instance : DecidableRel tripLt := by
  intro a b; unfold tripLt; infer_instance

instance : IsTotal Req tripLe := by
  constructor; intro a b
  rcases a with ⟨a1, a2, a3⟩; rcases b with ⟨b1, b2, b3⟩
  unfold tripLe; simp only []; omega

instance : IsTrans Req tripLe := by
  constructor; intro a b c hab hbc
  rcases a with ⟨a1, a2, a3⟩; rcases b with ⟨b1, b2, b3⟩; rcases c with ⟨c1, c2, c3⟩
  unfold tripLe at *; simp only [] at *; omega

instance : IsAntisymm Req tripLe := by
  constructor; intro a b hab hba
  rcases a with ⟨a1, a2, a3⟩; rcases b with ⟨b1, b2, b3⟩
  unfold tripLe at *; simp only [] at *
  have h1 : a1 = b1 := by omega
  have h2 : a2 = b2 := by omega
  have h3 : a3 = b3 := by omega
  simp [h1, h2, h3]

/-- The canonical column order of `fast_extract`: the resolved requests
sorted by (type, item index, variable index).  The Python code sorts with
pandas `sort_values`; on request lists whose triples are pairwise distinct all
correct sorts agree, which is the situation in which `fast_extract` produces a
table at all. -/
def sortReqs (rs : List Req) : List Req :=
  List.insertionSort tripLe rs

/-- The bulk extraction result for one period over resolved requests: the
columns, keyed by their canonical triples, paired with their 4 gathered value
bytes.  `pd.DataFrame(np.vstack(ts), ..., columns=headings)` raises a shape
error when the gathered data width (the number of selected 4-byte groups)
differs from the number of headings (swmmtoolbox.py line 734); the distinct
selected offsets of the mask determine the data width. -/
def fastTable (g : Geometry) (f : Nat → Nat) (rs : List Req) (p : Nat) :
    Except SwmmError (List (Req × List Nat)) :=
  if (gatherPeriod g f (rs.map (reqOffset g)) p).length = 4 * (sortReqs rs).length then
    .ok ((sortReqs rs).zip (chunk4 (gatherPeriod g f (rs.map (reqOffset g)) p)))
  else .error .shapeErr

/-- Name resolution of one request, as `name_check` does it
(swmmtoolbox.py lines 351-361): position of the first matching name. -/
def resolveOne (names : Nat → List String) (t : Nat) (name : String) : Option Nat :=
  (names t).findIdx? (· == name)

/-- Resolution of a raw request list (type code, name, variable index) to
triples, failing if any name is absent, as the `name_check` loop of
`fast_extract` does (swmmtoolbox.py lines 685-687). -/
def resolveAll (names : Nat → List String) :
    List (Nat × String × Nat) → Option (List Req)
  | [] => some []
  | q :: qs =>
    match resolveOne names q.1 q.2.1, resolveAll names qs with
    | some i, some rest => some ((q.1, i, q.2.2) :: rest)
    | _, _ => none

/-- The bulk extraction path `fast_extract` (swmmtoolbox.py lines 647-735)
for one period, from raw requests: resolve all names, then build the masked
gather and the canonically ordered columns. -/
def fastExtract (g : Geometry) (names : Nat → List String) (f : Nat → Nat)
    (reqs : List (Nat × String × Nat)) (p : Nat) :
    Except SwmmError (List (Req × List Nat)) :=
  match resolveAll names reqs with
  | none => .error .nameErr
  | some rs => fastTable g f rs p

instance {ε α : Type} [DecidableEq ε] [DecidableEq α] : DecidableEq (Except ε α) := fun x y =>
  match x, y with
  | .ok a, .ok b => if h : a = b then .isTrue (by rw [h]) else .isFalse (by simp [h])
  | .error e1, .error e2 => if h : e1 = e2 then .isTrue (by rw [h]) else .isFalse (by simp [h])
  | .ok _, .error _ => .isFalse (by simp)
  | .error _, .ok _ => .isFalse (by simp)

/-- Concrete geometry of the spec's hand-computed scenario (spec section 8):
1 subcatchment with 2 variables, 2 nodes with 3 variables, 1 link with 2
variables, 0 pollutants, 1 system variable; records start at byte 100,
3 periods.  `bytesperperiod = 4 * 13 = 52`. -/
def gScn : Geometry := ⟨1, 2, 1, 0, 2, 3, 2, 1, 100, 3⟩

/-- Name tables for `gScn`. -/
def namesScn : Nat → List String := fun t =>
  if t = 0 then ["S1"]
  else if t = 1 then ["N1", "N2"]
  else if t = 2 then ["L1"]
  else if t = 4 then ["Air_temperature"]
  else []

/-- Concrete geometry exposing the system-type divergence between the two
extraction paths: no subcatchments, nodes or links, 2 system variables,
records start at byte 0.  `bytesperperiod = 16`. -/
def gSys : Geometry := ⟨0, 0, 0, 0, 0, 0, 0, 2, 0, 1⟩

/-- Name tables for `gSys`: the system "names" are the variable labels, as
`self.names[4] = [self.varcode[4][i] for i in self.vars[4]]` builds them, so
"Rainfall" resolves to item index 1. -/
def namesSys : Nat → List String := fun t =>
  if t = 4 then ["Air_temperature", "Rainfall"] else []

/-- Concrete geometry for the duplicate-request counterexample: one node with
one variable, one system variable.  `bytesperperiod = 16`. -/
def gDup : Geometry := ⟨0, 1, 0, 0, 0, 1, 0, 1, 0, 1⟩

/-- Name tables for `gDup`. -/
def namesDup : Nat → List String := fun t =>
  if t = 1 then ["N1"] else if t = 4 then ["Air_temperature"] else []

/-- A concrete catalog state of a session over a file with one pollutant
("TSS"): the node variable-code table as selected at open time, one object
name per type. -/
def catSample : CatalogState :=
  ⟨["Rainfall"], ["Depth_above_invert"], ["Flow_rate"], ["Air_temperature"],
   ["S1"], ["N1"], ["L1"], ["TSS"], ["Air_temperature"]⟩

/-- The selected byte positions of the mask, grouped: for each requested
offset its 4 contiguous bytes, in request order. -/
def blocks (offs : List Nat) : List Nat :=
  offs.flatMap (fun r => [r, r + 1, r + 2, r + 3])

/-- C3: for every file accepted at open time, the computed bytes-per-period
equals `recordSize * (2 + Σ count[type]*varCount[type])` over the fixed type
order {subcatchment, node, link, system} with the system count taken as 1. -/
theorem bytesperperiod_formula (g : Geometry) :
    g.bytesperperiod =
      RECORDSIZE * (2 + ((typeOrderCounts g).map (fun pr => pr.1 * pr.2)).sum) := by
  simp only [Geometry.bytesperperiod, typeOrderCounts, List.map_cons, List.map_nil,
    List.sum_cons, List.sum_nil]
  ring

/-- C8: in the random-access extraction path, the ±1-second rounding
correction triggers exactly when `s % 10` is 1 or 9 and nowhere else:
the emitted value is `s - 1` when `s % 10 = 1`, `s + 1` when `s % 10 = 9`,
and `s` unchanged for every other residue. -/
theorem seconds_correction_closed_form (s : Nat) :
    adjust_seconds s = if s % 10 = 1 then s - 1 else if s % 10 = 9 then s + 1 else s := by
  simp only [adjust_seconds]
  split_ifs <;> omega

/-- C10: a single-value fetch with an object type outside {0, 1, 2, 4} — in
particular the pollutant type code 3 — fails with the type-guard error, for
every file, name table, name, variable index and period: the error is raised
by the first test of `get_swmm_results`, before the name is resolved and
before any byte of the file is consulted (the result does not depend on
`names` or `f`). -/
theorem pollutant_type_rejected_before_io (g : Geometry) (names : Nat → List String)
    (f : Nat → Nat) (t : Nat) (name : String) (v p : Nat)
    (ht : t ∉ ([0, 1, 2, 4] : List Nat)) :
    get_swmm_results g names f t name v p = .error .typeErr := by
  unfold get_swmm_results
  rw [if_pos ht]

/-- Witness for C10 at the pollutant type code 3. -/
theorem pollutant_type_rejected_witness :
    get_swmm_results gScn namesScn (fun n => n) 3 "TSS" 0 0 = .error .typeErr :=
  pollutant_type_rejected_before_io gScn namesScn (fun n => n) 3 "TSS" 0 0 (by decide)

/-- C7 (amended): opening succeeds exactly when both magic numbers match the
fixed constant, the stored error code is zero and the stored period count is
nonzero.  The code tests `swmm_nperiods == 0`, not `swmm_nperiods <= 0` as
the claim stated. -/
theorem open_validate_iff (m : Int) (tr : Trailer) :
    open_validate m tr = .ok () ↔
      (m = MAGICNUM ∧ tr.magic2 = MAGICNUM ∧ tr.errcode = 0 ∧ tr.swmm_nperiods ≠ 0) := by
  unfold open_validate
  split_ifs <;> simp_all

/-- Counterexample to C7 as stated: a trailer with a negative stored period
count (possible, the field is a signed 32-bit integer) passes validation and
construction proceeds, although the claim requires a FormatError whenever the
period count is not greater than zero. -/
theorem open_validate_accepts_negative_periods :
    open_validate MAGICNUM ⟨0, 0, 0, -1, 0, MAGICNUM⟩ = .ok () ∧ ¬(0 < (-1 : Int)) := by
  decide

/-- C2: for the four record types, with the item index within the type's item
count (the system block has a single item), the absolute offset read by the
single-value fetch equals the spec formula
`recordsStart + period*bytesPerPeriod + 2*recordSize + typeBase + itemIndex*varCount*recordSize + varIndex*recordSize`;
and at the hand-computed scenario geometry, the offset of (node, item 1,
var 2, period 2) equals
`recordsStart + 2*bytesPerPeriod + 2*recordSize + recordSize*2 + recordSize*(1*3) + recordSize*2`. -/
theorem value_offset_spec_formula :
    (∀ (g : Geometry) (t item var p : Nat),
        t ∈ ([0, 1, 2, 4] : List Nat) → item < itemcount g t →
        value_offset g t item var p = specValueOffset g t item var p) ∧
    value_offset gScn 1 1 2 2 =
      gScn.startpos + 2 * gScn.bytesperperiod + 2 * RECORDSIZE +
        RECORDSIZE * 2 + RECORDSIZE * (1 * 3) + RECORDSIZE * 2 := by
  constructor
  · intro g t item var p ht hitem
    fin_cases ht
    · simp [value_offset, specValueOffset, specTypeBase, typeOrderCounts, varmap, RECORDSIZE]
      ring
    · simp [value_offset, specValueOffset, specTypeBase, typeOrderCounts, varmap, RECORDSIZE]
      ring
    · simp [value_offset, specValueOffset, specTypeBase, typeOrderCounts, varmap, RECORDSIZE]
      ring
    · have h0 : item = 0 := by simpa [itemcount] using hitem
      subst h0
      simp [value_offset, specValueOffset, specTypeBase, typeOrderCounts, varmap, RECORDSIZE]
      ring
  · decide

/-- Witness for C2 at the scenario geometry. -/
theorem value_offset_spec_formula_witness :
    value_offset gScn 1 1 2 2 = specValueOffset gScn 1 1 2 2 :=
  value_offset_spec_formula.1 gScn 1 1 2 2 (by decide) (by decide)

/-- C4 (amended): the boolean byte-selection mask of `fast_extract` covers
`bytesPerPeriod - 2` bytes (the code allocates `np.zeros(bytesperperiod - 2)`,
not `bytesperperiod - 2*recordSize` as the claim stated), and a byte is marked
selected exactly when it lies in the 4 contiguous bytes of some requested
offset; the mask is a function of the geometry and the resolved requests only,
so it is period-independent and built once. -/
theorem mask_shape (g : Geometry) (offs : List Nat) :
    (boolMask g offs).length = g.bytesperperiod - 2 ∧
    ∀ b : Nat, ((boolMask g offs)[b]? = some true ↔
      b < g.bytesperperiod - 2 ∧ ∃ r ∈ offs, r ≤ b ∧ b < r + 4) := by
  constructor
  · simp [boolMask]
  · intro b
    by_cases hb : b < g.bytesperperiod - 2
    · rw [boolMask, List.getElem?_map, List.getElem?_range hb]
      simp [maskBit, List.any_eq_true, hb]
    · have hnone : (boolMask g offs)[b]? = none := by
        apply List.getElem?_eq_none
        simpa [boolMask] using Nat.le_of_not_lt hb
      simp [hnone, hb]

/-- Counterexample to C4 as stated: at the scenario geometry (bytes-per-period
52) with one resolved node request, the mask length is 50 = 52 - 2, not
52 - 2*4 = 44. -/
theorem mask_length_not_minus_two_records :
    (boolMask gScn [fastOffset gScn 1 1 2]).length ≠
      gScn.bytesperperiod - 2 * RECORDSIZE := by
  decide

/-- C6 (amended): `get_swmm_results` performs no validation of the variable
index at all: for any variable index, including every index at or beyond the
type's declared variable count, the fetch proceeds to resolve the name, seeks
and returns the 8 date bytes and the 4 bytes at the usual offset formula
(which for an out-of-range index belong to a neighbouring item or to the
following period).  No lookup error is raised. -/
theorem no_varindex_validation (g : Geometry) (names : Nat → List String) (f : Nat → Nat)
    (t : Nat) (name : String) (v p i : Nat)
    (ht : t ∈ ([0, 1, 2, 4] : List Nat)) (hres : resolveOne names t name = some i)
    (hvbig : varmap g t ≤ v) :
    get_swmm_results g names f t name v p =
      .ok (read8 f (g.startpos + p * g.bytesperperiod),
           read4 f (value_offset g t i v p)) := by
  unfold get_swmm_results
  rw [if_neg (not_not_intro ht)]
  unfold resolveOne at hres
  rw [hres]

/-- Witness for C6 (amended): node variable index 3 with declared node
variable count 3. -/
theorem no_varindex_validation_witness :
    get_swmm_results gScn namesScn (fun n => n) 1 "N1" 3 0 =
      .ok (read8 (fun n => n) (gScn.startpos + 0 * gScn.bytesperperiod),
           read4 (fun n => n) (value_offset gScn 1 0 3 0)) :=
  no_varindex_validation gScn namesScn (fun n => n) 1 "N1" 3 0 0
    (by decide) (by decide) (by decide)

/-- Counterexample to C6 as stated: requesting node variable index 3 when the
declared node variable count is 3 does not raise a lookup error; the fetch
completes and returns bytes read from the file (here the identity byte
source). -/
theorem out_of_range_varindex_returns_ok :
    get_swmm_results gScn namesScn (fun n => n) 1 "N1" 3 0 =
      .ok ([100, 101, 102, 103, 104, 105, 106, 107], [128, 129, 130, 131]) ∧
    ¬(3 < varmap gScn 1) := by
  constructor
  · decide
  · decide

/-- C9 (amended): a query step never modifies the object-name tables, and is
the identity on the whole catalog state when the file has no pollutants; but
`extract` and `listvariables` call `update_var_code`, which appends the
pollutant names to the variable-code table of the queried type, so with at
least one pollutant the catalog state after the call differs from the state
at open time (and grows again on every further call). -/
theorem catalog_mutation_characterized (c : CatalogState) (t : Nat) :
    ((update_var_code c t).names0 = c.names0 ∧ (update_var_code c t).names1 = c.names1 ∧
     (update_var_code c t).names2 = c.names2 ∧ (update_var_code c t).names3 = c.names3 ∧
     (update_var_code c t).names4 = c.names4) ∧
    (c.names3 = [] → update_var_code c t = c) ∧
    (c.names3 ≠ [] → t ∈ ([0, 1, 2, 4] : List Nat) → update_var_code c t ≠ c) := by
  obtain ⟨v0, v1, v2, v4, n0, n1, n2, n3, n4⟩ := c
  rcases t with _ | _ | _ | _ | _ | t
  · refine ⟨by simp [update_var_code], fun h => by simp at h; simp [update_var_code, h], ?_⟩
    intro h _ heq
    have hlen := congrArg (fun s => s.varcode0.length) heq
    simp [update_var_code] at hlen
    simp at h
    exact h hlen
  · refine ⟨by simp [update_var_code], fun h => by simp at h; simp [update_var_code, h], ?_⟩
    intro h _ heq
    have hlen := congrArg (fun s => s.varcode1.length) heq
    simp [update_var_code] at hlen
    simp at h
    exact h hlen
  · refine ⟨by simp [update_var_code], fun h => by simp at h; simp [update_var_code, h], ?_⟩
    intro h _ heq
    have hlen := congrArg (fun s => s.varcode2.length) heq
    simp [update_var_code] at hlen
    simp at h
    exact h hlen
  · refine ⟨by simp [update_var_code], fun _ => by simp [update_var_code], ?_⟩
    intro _ hmem
    exact absurd hmem (by decide)
  · refine ⟨by simp [update_var_code], fun h => by simp at h; simp [update_var_code, h], ?_⟩
    intro h _ heq
    have hlen := congrArg (fun s => s.varcode4.length) heq
    simp [update_var_code] at hlen
    simp at h
    exact h hlen
  · refine ⟨by simp [update_var_code], fun _ => by simp [update_var_code], ?_⟩
    intro _ hmem
    simp at hmem

/-- Counterexample to C9 as stated: over a file with one pollutant, a single
`update_var_code` step (performed by every `extract` label and by
`listvariables`) changes the catalog state. -/
theorem update_var_code_mutates_catalog : update_var_code catSample 1 ≠ catSample := by
  decide

/-- Witness for C9 (amended) at the sample catalog state. -/
theorem catalog_mutation_witness :
    (update_var_code catSample 1).names3 = catSample.names3 ∧
    update_var_code catSample 1 ≠ catSample :=
  ⟨(catalog_mutation_characterized catSample 1).1.2.2.2.1,
   (catalog_mutation_characterized catSample 1).2.2 (by decide) (by decide)⟩

theorem chunk4_cons4 {α : Type} (a b c d : α) (l : List α) :
    chunk4 (a :: b :: c :: d :: l) = [a, b, c, d] :: chunk4 l := rfl

theorem mem_blocks {offs : List Nat} {b : Nat} :
    b ∈ blocks offs ↔ ∃ r ∈ offs, r ≤ b ∧ b < r + 4 := by
  simp only [blocks, List.mem_flatMap, List.mem_cons, List.not_mem_nil, or_false]
  constructor
  · rintro ⟨r, hr, hb⟩
    exact ⟨r, hr, by omega⟩
  · rintro ⟨r, hr, h1, h2⟩
    exact ⟨r, hr, by omega⟩

theorem blocks_pairwise_lt {offs : List Nat}
    (h : List.Pairwise (fun a b => a + 4 ≤ b) offs) :
    List.Pairwise (· < ·) (blocks offs) := by
  induction offs with
  | nil => simp [blocks]
  | cons r rest ih =>
    rcases List.pairwise_cons.mp h with ⟨hr, hrest⟩
    have hsplit : blocks (r :: rest) = [r, r + 1, r + 2, r + 3] ++ blocks rest := by
      simp [blocks]
    rw [hsplit, List.pairwise_append]
    refine ⟨?_, ih hrest, ?_⟩
    · refine List.Pairwise.cons ?_ (List.Pairwise.cons ?_
        (List.Pairwise.cons ?_ (List.Pairwise.cons ?_ List.Pairwise.nil)))
      · intro x hx
        simp at hx
        omega
      · intro x hx
        simp at hx
        omega
      · intro x hx
        simp at hx
        omega
      · intro x hx
        simp at hx
    · intro a ha b hb
      have hamem : a = r ∨ a = r + 1 ∨ a = r + 2 ∨ a = r + 3 := by
        simpa using ha
      obtain ⟨r2, hr2, hle, hlt⟩ := mem_blocks.mp hb
      have := hr r2 hr2
      omega

theorem filter_range_eq_blocks {offs : List Nat} {L : Nat}
    (h4 : List.Pairwise (fun a b => a + 4 ≤ b) offs)
    (hL : ∀ r ∈ offs, r + 4 ≤ L) :
    (List.range L).filter (maskBit offs) = blocks offs := by
  have hs1 : List.Pairwise (· < ·) ((List.range L).filter (maskBit offs)) :=
    List.Pairwise.filter (maskBit offs) (List.sorted_lt_range L)
  have hs2 := blocks_pairwise_lt h4
  have hmem : ∀ b, b ∈ (List.range L).filter (maskBit offs) ↔ b ∈ blocks offs := by
    intro b
    rw [List.mem_filter, List.mem_range, mem_blocks]
    simp only [maskBit, List.any_eq_true, Bool.and_eq_true, decide_eq_true_eq]
    constructor
    · rintro ⟨hbL, r, hr, h1, h2⟩
      exact ⟨r, hr, h1, h2⟩
    · rintro ⟨r, hr, h1, h2⟩
      exact ⟨lt_of_lt_of_le h2 (hL r hr), r, hr, h1, h2⟩
  have hn1 : ((List.range L).filter (maskBit offs)).Nodup :=
    List.Nodup.filter _ (List.nodup_range L)
  have hn2 : (blocks offs).Nodup := hs2.imp (fun h => Nat.ne_of_lt h)
  have hperm := (List.perm_ext_iff_of_nodup hn1 hn2).mpr hmem
  exact List.eq_of_perm_of_sorted hperm (hs1.imp le_of_lt) (hs2.imp le_of_lt)

theorem map_blocks_eq_flatMap_read4 (f : Nat → Nat) (s : Nat) (offs : List Nat) :
    (blocks offs).map (fun b => f (s + b)) =
      offs.flatMap (fun r => read4 f (s + r)) := by
  induction offs with
  | nil => simp [blocks]
  | cons r rest ih =>
    have hsplit : blocks (r :: rest) = [r, r + 1, r + 2, r + 3] ++ blocks rest := by
      simp [blocks]
    rw [hsplit, List.map_append, ih, List.flatMap_cons]
    simp [read4, Nat.add_assoc]

theorem gatherPeriod_eq_flatMap (g : Geometry) (f : Nat → Nat) (offs : List Nat) (p : Nat)
    (h4 : List.Pairwise (fun a b => a + 4 ≤ b) offs)
    (hL : ∀ r ∈ offs, r + 4 ≤ g.bytesperperiod - 2) :
    gatherPeriod g f offs p =
      offs.flatMap (fun r => read4 f (payloadStart g p + r)) := by
  unfold gatherPeriod
  rw [filter_range_eq_blocks h4 hL, map_blocks_eq_flatMap_read4]

theorem chunk4_flatMap_read4 (f : Nat → Nat) (s : Nat) (offs : List Nat) :
    chunk4 (offs.flatMap (fun r => read4 f (s + r))) =
      offs.map (fun r => read4 f (s + r)) := by
  induction offs with
  | nil => simp [chunk4]
  | cons r rest ih =>
    rw [List.flatMap_cons, List.map_cons]
    show chunk4 (f (s + r) :: f (s + r + 1) :: f (s + r + 2) :: f (s + r + 3) ::
      rest.flatMap (fun r => read4 f (s + r))) = _
    rw [chunk4_cons4, ih]
    rfl

theorem length_flatMap_read4 (f : Nat → Nat) (s : Nat) (offs : List Nat) :
    (offs.flatMap (fun r => read4 f (s + r))).length = 4 * offs.length := by
  induction offs with
  | nil => simp
  | cons r rest ih =>
    rw [List.flatMap_cons, List.length_append, ih]
    simp [read4]
    omega

theorem zip_getElem_some {α β : Type} (l1 : List α) (l2 : List β) (j : Nat) (a : α) (b : β)
    (h1 : l1[j]? = some a) (h2 : l2[j]? = some b) : (l1.zip l2)[j]? = some (a, b) := by
  induction l1 generalizing l2 j with
  | nil => simp at h1
  | cons x xs ih =>
    cases l2 with
    | nil => simp at h2
    | cons y ys =>
      cases j with
      | zero =>
        simp only [List.getElem?_cons_zero, Option.some.injEq] at h1 h2
        simp [List.zip_cons_cons, h1, h2]
      | succ j =>
        simp only [List.getElem?_cons_succ] at h1 h2
        simpa [List.zip_cons_cons] using ih ys j h1 h2

theorem typemap_step (g : Geometry) :
    typemap g 0 + itemcount g 0 * varmap g 0 * RECORDSIZE = typemap g 1 ∧
    typemap g 1 + itemcount g 1 * varmap g 1 * RECORDSIZE = typemap g 2 ∧
    typemap g 2 + itemcount g 2 * varmap g 2 * RECORDSIZE = typemap g 4 ∧
    typemap g 4 + itemcount g 4 * varmap g 4 * RECORDSIZE =
      g.bytesperperiod - 2 * RECORDSIZE := by
  simp only [typemap, itemcount, varmap, Geometry.bytesperperiod, RECORDSIZE]
  refine ⟨by ring, by ring, by ring, ?_⟩
  ring_nf
  omega

theorem within_block (TB vm cnt i v : Nat) (hi : i < cnt) (hv : v < vm) :
    TB + i * vm * RECORDSIZE + v * RECORDSIZE + 4 ≤ TB + cnt * vm * RECORDSIZE := by
  have h1 : (i + 1) * vm ≤ cnt * vm := Nat.mul_le_mul_right vm (by omega)
  have h2 : (i + 1) * vm = i * vm + vm := Nat.succ_mul i vm
  simp only [RECORDSIZE]
  omega

theorem within_mono (TB vm i j v w : Nat) (hv : v < vm)
    (h : i < j ∨ (i = j ∧ v < w)) :
    TB + i * vm * RECORDSIZE + v * RECORDSIZE + 4 ≤
      TB + j * vm * RECORDSIZE + w * RECORDSIZE := by
  simp only [RECORDSIZE]
  rcases h with h | ⟨rfl, h⟩
  · have h1 : (i + 1) * vm ≤ j * vm := Nat.mul_le_mul_right vm (by omega)
    have h2 : (i + 1) * vm = i * vm + vm := Nat.succ_mul i vm
    omega
  · omega

theorem typemap_cross (g : Geometry) {ta tb : Nat}
    (ha : ta ∈ ([0, 1, 2, 4] : List Nat)) (hb : tb ∈ ([0, 1, 2, 4] : List Nat))
    (h : ta < tb) :
    typemap g ta + itemcount g ta * varmap g ta * RECORDSIZE ≤ typemap g tb := by
  have hstep := typemap_step g
  fin_cases ha <;> fin_cases hb <;> omega

theorem reqOffset_strictMono (g : Geometry) {a b : Req}
    (ha : ValidReq g a) (hb : ValidReq g b) (hlt : tripLt a b) :
    reqOffset g a + 4 ≤ reqOffset g b := by
  obtain ⟨ta, ia, va⟩ := a
  obtain ⟨tb, ib, vb⟩ := b
  obtain ⟨hta, hia, hva⟩ := ha
  obtain ⟨htb, hib, hvb⟩ := hb
  unfold tripLt at hlt
  simp only [] at hlt hta htb hia hva hib hvb
  simp only [reqOffset, fastOffset]
  rcases hlt with h | ⟨heq, hinner⟩
  · have hcross := typemap_cross g hta htb h
    have hw := within_block (typemap g ta) (varmap g ta) (itemcount g ta) ia va hia hva
    omega
  · subst heq
    exact within_mono (typemap g ta) (varmap g ta) ia ib va vb hva hinner

theorem reqOffset_bound (g : Geometry) {r : Req} (h : ValidReq g r) :
    reqOffset g r + 4 ≤ g.bytesperperiod - 2 := by
  obtain ⟨t, i, v⟩ := r
  obtain ⟨ht, hi, hv⟩ := h
  simp only [] at ht hi hv
  have hstep := typemap_step g
  have hw := within_block (typemap g t) (varmap g t) (itemcount g t) i v hi hv
  simp only [reqOffset, fastOffset]
  simp only [RECORDSIZE] at hstep hw ⊢
  fin_cases ht <;> omega

theorem tripLt_of_tripLe_ne {a b : Req} (h : tripLe a b) (hne : a ≠ b) : tripLt a b := by
  obtain ⟨a1, a2, a3⟩ := a
  obtain ⟨b1, b2, b3⟩ := b
  unfold tripLe at h
  unfold tripLt
  simp only [] at h ⊢
  have hne' : ¬(a1 = b1 ∧ a2 = b2 ∧ a3 = b3) := by
    rintro ⟨e1, e2, e3⟩
    exact hne (by simp [e1, e2, e3])
  omega

theorem sortReqs_sorted (rs : List Req) : List.Pairwise tripLe (sortReqs rs) :=
  List.sorted_insertionSort tripLe rs

theorem sortReqs_perm (rs : List Req) : (sortReqs rs).Perm rs :=
  List.perm_insertionSort tripLe rs

theorem sortReqs_eq_of_perm {rs rt : List Req} (h : rs.Perm rt) :
    sortReqs rs = sortReqs rt :=
  List.eq_of_perm_of_sorted
    ((sortReqs_perm rs).trans (h.trans (sortReqs_perm rt).symm))
    (sortReqs_sorted rs) (sortReqs_sorted rt)

theorem sortReqs_pairwise_lt {rs : List Req}
    (hdis : List.Pairwise (fun a b : Req => a ≠ b) rs) :
    List.Pairwise tripLt (sortReqs rs) := by
  have hle := sortReqs_sorted rs
  have hne : List.Pairwise (fun a b : Req => a ≠ b) (sortReqs rs) :=
    ((sortReqs_perm rs).pairwise_iff (fun h => Ne.symm h)).mpr hdis
  exact (hle.and hne).imp (fun h => tripLt_of_tripLe_ne h.1 h.2)

theorem maskBit_perm {l1 l2 : List Nat} (h : l1.Perm l2) : maskBit l1 = maskBit l2 := by
  funext b
  have hiff : (maskBit l1 b = true) ↔ (maskBit l2 b = true) := by
    simp only [maskBit, List.any_eq_true]
    constructor
    · rintro ⟨r, hr, hp⟩
      exact ⟨r, h.mem_iff.mp hr, hp⟩
    · rintro ⟨r, hr, hp⟩
      exact ⟨r, h.mem_iff.mpr hr, hp⟩
  cases h1 : maskBit l1 b <;> cases h2 : maskBit l2 b <;> simp_all

theorem gatherPeriod_congr (g : Geometry) (f : Nat → Nat) {offs1 offs2 : List Nat}
    (h : maskBit offs1 = maskBit offs2) (p : Nat) :
    gatherPeriod g f offs1 p = gatherPeriod g f offs2 p := by
  unfold gatherPeriod
  rw [h]

theorem resolveAll_length (names : Nat → List String) :
    ∀ {reqs : List (Nat × String × Nat)} {rs : List Req},
      resolveAll names reqs = some rs → rs.length = reqs.length := by
  intro reqs
  induction reqs with
  | nil =>
    intro rs h
    simp [resolveAll] at h
    simp [← h]
  | cons q qs ih =>
    intro rs h
    cases hq : resolveOne names q.1 q.2.1 with
    | none => simp [resolveAll, hq] at h
    | some i =>
      cases hrest : resolveAll names qs with
      | none => simp [resolveAll, hq, hrest] at h
      | some rest =>
        simp only [resolveAll, hq, hrest, Option.some.injEq] at h
        subst h
        simp [ih hrest]

theorem resolveAll_mem (names : Nat → List String) :
    ∀ {reqs : List (Nat × String × Nat)} {rs : List Req},
      resolveAll names reqs = some rs → ∀ {r : Req}, r ∈ rs →
      ∃ q ∈ reqs, q.1 = r.1 ∧ q.2.2 = r.2.2 ∧ resolveOne names q.1 q.2.1 = some r.2.1 := by
  intro reqs
  induction reqs with
  | nil =>
    intro rs h r hr
    simp [resolveAll] at h
    subst h
    simp at hr
  | cons q qs ih =>
    intro rs h r hr
    cases hq : resolveOne names q.1 q.2.1 with
    | none => simp [resolveAll, hq] at h
    | some i =>
      cases hrest : resolveAll names qs with
      | none => simp [resolveAll, hq, hrest] at h
      | some rest =>
        simp only [resolveAll, hq, hrest, Option.some.injEq] at h
        subst h
        rcases List.mem_cons.mp hr with hhead | htail
        · subst hhead
          exact ⟨q, List.mem_cons_self q qs, rfl, rfl, hq⟩
        · obtain ⟨q2, hq2, h1, h2, h3⟩ := ih hrest htail
          exact ⟨q2, List.mem_cons_of_mem q hq2, h1, h2, h3⟩

theorem resolveAll_perm (names : Nat → List String) :
    ∀ {reqs reqt : List (Nat × String × Nat)}, reqs.Perm reqt →
      ∀ {rs : List Req}, resolveAll names reqt = some rs →
      ∃ rt : List Req, resolveAll names reqs = some rt ∧ rt.Perm rs := by
  intro reqs reqt hperm
  induction hperm with
  | nil =>
    intro rs h
    exact ⟨rs, h, List.Perm.refl rs⟩
  | @cons q l1 l2 hp ih =>
    intro rs h
    cases hq : resolveOne names q.1 q.2.1 with
    | none => simp [resolveAll, hq] at h
    | some i =>
      cases hrest : resolveAll names l2 with
      | none => simp [resolveAll, hq, hrest] at h
      | some rest =>
        simp only [resolveAll, hq, hrest, Option.some.injEq] at h
        subst h
        obtain ⟨rt, hrt, hrtperm⟩ := ih hrest
        exact ⟨(q.1, i, q.2.2) :: rt, by simp [resolveAll, hq, hrt], hrtperm.cons _⟩
  | swap x y l =>
    intro rs h
    cases hy : resolveOne names y.1 y.2.1 with
    | none => simp [resolveAll, hy] at h
    | some iy =>
      cases hx : resolveOne names x.1 x.2.1 with
      | none => simp [resolveAll, hy, hx] at h
      | some ix =>
        cases hl : resolveAll names l with
        | none => simp [resolveAll, hy, hx, hl] at h
        | some rl =>
          simp only [resolveAll, hy, hx, hl, Option.some.injEq] at h
          subst h
          refine ⟨(y.1, iy, y.2.2) :: (x.1, ix, x.2.2) :: rl, ?_, List.Perm.swap _ _ _⟩
          simp [resolveAll, hy, hx, hl]
  | trans h12 h23 ih12 ih23 =>
    intro rs h
    obtain ⟨rt2, hrt2, hp2⟩ := ih23 h
    obtain ⟨rt1, hrt1, hp1⟩ := ih12 hrt2
    exact ⟨rt1, hrt1, hp1.trans hp2⟩

theorem reqOffset_to_value_offset (g : Geometry) {r : Req} (h : ValidReq g r) (p : Nat) :
    payloadStart g p + reqOffset g r = value_offset g r.1 r.2.1 r.2.2 p := by
  obtain ⟨t, i, v⟩ := r
  obtain ⟨ht, hi, hv⟩ := h
  simp only [] at ht hi hv
  fin_cases ht
  · simp [payloadStart, reqOffset, fastOffset, typemap, varmap, value_offset, RECORDSIZE]
    ring
  · simp [payloadStart, reqOffset, fastOffset, typemap, varmap, value_offset, RECORDSIZE]
    ring
  · simp [payloadStart, reqOffset, fastOffset, typemap, varmap, value_offset, RECORDSIZE]
    ring
  · have h0 : i = 0 := by simpa [itemcount] using hi
    subst h0
    simp [payloadStart, reqOffset, fastOffset, typemap, varmap, value_offset, RECORDSIZE]
    ring

theorem get_swmm_results_ok (g : Geometry) (names : Nat → List String) (f : Nat → Nat)
    (t : Nat) (name : String) (i v p : Nat)
    (ht : t ∈ ([0, 1, 2, 4] : List Nat)) (hres : resolveOne names t name = some i) :
    get_swmm_results g names f t name v p =
      .ok (read8 f (g.startpos + p * g.bytesperperiod),
           read4 f (value_offset g t i v p)) := by
  unfold get_swmm_results
  rw [if_neg (not_not_intro ht)]
  unfold resolveOne at hres
  rw [hres]

theorem fastTable_ok (g : Geometry) (f : Nat → Nat) {rs : List Req} (p : Nat)
    (hvalid : ∀ r ∈ rs, ValidReq g r)
    (hdis : List.Pairwise (fun a b : Req => a ≠ b) rs) :
    fastTable g f rs p =
      .ok ((sortReqs rs).zip
        ((sortReqs rs).map (fun r => read4 f (payloadStart g p + reqOffset g r)))) := by
  have hperm : (sortReqs rs).Perm rs := sortReqs_perm rs
  have hvalid' : ∀ r ∈ sortReqs rs, ValidReq g r := fun r hr => hvalid r (hperm.mem_iff.mp hr)
  have hplt : List.Pairwise tripLt (sortReqs rs) := sortReqs_pairwise_lt hdis
  have hgap : List.Pairwise (fun a b => a + 4 ≤ b) ((sortReqs rs).map (reqOffset g)) := by
    rw [List.pairwise_map]
    exact hplt.imp_of_mem
      (fun ha hb hlt => reqOffset_strictMono g (hvalid' _ ha) (hvalid' _ hb) hlt)
  have hbound : ∀ o ∈ (sortReqs rs).map (reqOffset g), o + 4 ≤ g.bytesperperiod - 2 := by
    intro o ho
    obtain ⟨r, hr, rfl⟩ := List.mem_map.mp ho
    exact reqOffset_bound g (hvalid' r hr)
  have hmask : maskBit (rs.map (reqOffset g)) = maskBit ((sortReqs rs).map (reqOffset g)) :=
    maskBit_perm ((hperm.map (reqOffset g)).symm)
  have hgather : gatherPeriod g f (rs.map (reqOffset g)) p =
      ((sortReqs rs).map (reqOffset g)).flatMap (fun o => read4 f (payloadStart g p + o)) := by
    rw [gatherPeriod_congr g f hmask p]
    exact gatherPeriod_eq_flatMap g f _ p hgap hbound
  have hlen : (gatherPeriod g f (rs.map (reqOffset g)) p).length = 4 * (sortReqs rs).length := by
    rw [hgather, length_flatMap_read4, List.length_map]
  have hchunk : chunk4 (gatherPeriod g f (rs.map (reqOffset g)) p) =
      (sortReqs rs).map (fun r => read4 f (payloadStart g p + reqOffset g r)) := by
    rw [hgather, chunk4_flatMap_read4, List.map_map]
    rfl
  unfold fastTable
  rw [if_pos hlen, hchunk]

/-- C1 (amended): over every file, for requests that resolve to pairwise
distinct valid triples — type in {0, 1, 2, 4}, item index within the type's
item count (so system requests must resolve to item 0), variable index within
the declared range — the bulk path `fast_extract` produces a table whose
column `j` (in canonical sorted order) carries, in every period `p`, exactly
the value bytes that the single-series path `get_swmm_results` returns for
the request that resolved to that column's triple.  The claim as stated is
false for system requests resolving to a nonzero item index (see the
counterexample): there the bulk path adds an item offset that the single
path does not. -/
theorem single_matches_bulk_on_valid_requests
    (g : Geometry) (names : Nat → List String) (f : Nat → Nat)
    (reqs : List (Nat × String × Nat)) (rs : List Req) (p j : Nat) (trip : Req)
    (hres : resolveAll names reqs = some rs)
    (hvalid : ∀ r ∈ rs, ValidReq g r)
    (hdis : List.Pairwise (fun a b : Req => a ≠ b) rs)
    (hj : (sortReqs rs)[j]? = some trip) :
    ∃ (tbl : List (Req × List Nat)) (value : List Nat) (q : Nat × String × Nat),
      fastExtract g names f reqs p = .ok tbl ∧
      tbl[j]? = some (trip, value) ∧
      q ∈ reqs ∧
      get_swmm_results g names f q.1 q.2.1 q.2.2 p =
        .ok (read8 f (g.startpos + p * g.bytesperperiod), value) ∧
      resolveOne names q.1 q.2.1 = some trip.2.1 ∧ q.1 = trip.1 ∧ q.2.2 = trip.2.2 := by
  have hperm : (sortReqs rs).Perm rs := sortReqs_perm rs
  have htbl : fastExtract g names f reqs p =
      .ok ((sortReqs rs).zip
        ((sortReqs rs).map (fun r => read4 f (payloadStart g p + reqOffset g r)))) := by
    unfold fastExtract
    rw [hres]
    exact fastTable_ok g f p hvalid hdis
  have hcol : ((sortReqs rs).map (fun r => read4 f (payloadStart g p + reqOffset g r)))[j]? =
      some (read4 f (payloadStart g p + reqOffset g trip)) := by
    rw [List.getElem?_map, hj]
    rfl
  have hzip := zip_getElem_some _ _ j _ _ hj hcol
  have htripmem : trip ∈ rs := hperm.mem_iff.mp (List.getElem?_mem hj)
  have htripvalid : ValidReq g trip := hvalid trip htripmem
  obtain ⟨q, hq, hq1, hq2, hq3⟩ := resolveAll_mem names hres htripmem
  have hq3' := hq3
  rw [hq1] at hq3'
  refine ⟨_, read4 f (payloadStart g p + reqOffset g trip), q, htbl, hzip, hq, ?_, hq3, hq1, hq2⟩
  rw [hq1, hq2,
    get_swmm_results_ok g names f trip.1 q.2.1 trip.2.1 trip.2.2 p htripvalid.1 hq3',
    ← reqOffset_to_value_offset g htripvalid p]

/-- C5 (amended): for requests resolving to pairwise distinct valid triples,
the bulk result is invariant under any permutation of the input request
order, its columns are keyed by the resolved triples in strictly ascending
canonical (type, itemIndex, varIndex) order, and the column count equals the
number of requests (= number of distinct triples).  The claim as stated is
false for exact duplicate requests: the mask deduplicates their bytes, so the
data width no longer matches the heading count and `pd.DataFrame` raises a
shape error instead of collapsing the duplicates into one column (see the
counterexample). -/
theorem bulk_columns_canonical_invariant
    (g : Geometry) (names : Nat → List String) (f : Nat → Nat)
    (reqs reqt : List (Nat × String × Nat)) (rs : List Req) (p : Nat)
    (hperm : reqs.Perm reqt)
    (hres : resolveAll names reqt = some rs)
    (hvalid : ∀ r ∈ rs, ValidReq g r)
    (hdis : List.Pairwise (fun a b : Req => a ≠ b) rs) :
    fastExtract g names f reqs p = fastExtract g names f reqt p ∧
    ∃ tbl : List (Req × List Nat),
      fastExtract g names f reqt p = .ok tbl ∧
      tbl.length = reqt.length ∧
      tbl.map Prod.fst = sortReqs rs ∧
      List.Pairwise tripLt (tbl.map Prod.fst) := by
  obtain ⟨rt, hrt, hrtperm⟩ := resolveAll_perm names hperm hres
  have hsrt : sortReqs rt = sortReqs rs := sortReqs_eq_of_perm hrtperm
  have hmask : maskBit (rt.map (reqOffset g)) = maskBit (rs.map (reqOffset g)) :=
    maskBit_perm (hrtperm.map _)
  constructor
  · unfold fastExtract
    rw [hres, hrt]
    dsimp only
    unfold fastTable
    rw [hsrt, gatherPeriod_congr g f hmask p]
  · have hok : fastExtract g names f reqt p =
        .ok ((sortReqs rs).zip
          ((sortReqs rs).map (fun r => read4 f (payloadStart g p + reqOffset g r)))) := by
      unfold fastExtract
      rw [hres]
      exact fastTable_ok g f p hvalid hdis
    refine ⟨_, hok, ?_, ?_, ?_⟩
    · have h1 : (sortReqs rs).length = rs.length := (sortReqs_perm rs).length_eq
      have h2 : rs.length = reqt.length := resolveAll_length names hres
      simp [List.length_zip, h1, h2]
    · apply List.map_fst_zip
      simp
    · rw [List.map_fst_zip _ _ (by simp)]
      exact sortReqs_pairwise_lt hdis

/-- Witness for C1 (amended) on a one-node geometry: the single bulk column
equals the single-path value. -/
theorem single_matches_bulk_witness :
    ∃ (tbl : List (Req × List Nat)) (value : List Nat) (q : Nat × String × Nat),
      fastExtract gDup namesDup (fun n => n) [(1, "N1", 0)] 0 = .ok tbl ∧
      tbl[0]? = some (((1, 0, 0) : Req), value) ∧
      q ∈ [((1 : Nat), "N1", (0 : Nat))] ∧
      get_swmm_results gDup namesDup (fun n => n) q.1 q.2.1 q.2.2 0 =
        .ok (read8 (fun n => n) (gDup.startpos + 0 * gDup.bytesperperiod), value) ∧
      resolveOne namesDup q.1 q.2.1 = some ((1, 0, 0) : Req).2.1 ∧
      q.1 = ((1, 0, 0) : Req).1 ∧ q.2.2 = ((1, 0, 0) : Req).2.2 :=
  single_matches_bulk_on_valid_requests gDup namesDup (fun n => n) [(1, "N1", 0)]
    [(1, 0, 0)] 0 0 (1, 0, 0) (by decide) (by decide) (by decide) (by decide)

/-- Counterexample to C1 as stated: the system request (system, "Rainfall",
var 0) — name present in the catalog, variable index within the declared
range — resolves to item index 1, and over the identity byte source the bulk
path returns the bytes at absolute offsets 16..19 (the following period's
date field) while the single path returns the bytes at offsets 8..11: the
two extraction paths disagree, with exact byte-level inequality. -/
theorem single_bulk_diverge_on_system_item :
    fastExtract gSys namesSys (fun n => n) [(4, "Rainfall", 0)] 0 =
      .ok [(((4, 1, 0) : Req), [16, 17, 18, 19])] ∧
    get_swmm_results gSys namesSys (fun n => n) 4 "Rainfall" 0 0 =
      .ok ([0, 1, 2, 3, 4, 5, 6, 7], [8, 9, 10, 11]) ∧
    ([16, 17, 18, 19] : List Nat) ≠ [8, 9, 10, 11] :=
  ⟨by decide, by decide, by decide⟩

/-- Witness for C5 (amended): two distinct requests supplied in both orders
give the same table, with columns sorted by (type, item, var). -/
theorem bulk_columns_canonical_invariant_witness :
    fastExtract gScn namesScn (fun n => n) [(1, "N1", 1), (0, "S1", 0)] 0 =
      fastExtract gScn namesScn (fun n => n) [(0, "S1", 0), (1, "N1", 1)] 0 ∧
    ∃ tbl : List (Req × List Nat),
      fastExtract gScn namesScn (fun n => n) [(0, "S1", 0), (1, "N1", 1)] 0 = .ok tbl ∧
      tbl.length = ([(0, "S1", 0), (1, "N1", 1)] : List (Nat × String × Nat)).length ∧
      tbl.map Prod.fst = sortReqs [(0, 0, 0), (1, 0, 1)] ∧
      List.Pairwise tripLt (tbl.map Prod.fst) :=
  bulk_columns_canonical_invariant gScn namesScn (fun n => n)
    [(1, "N1", 1), (0, "S1", 0)] [(0, "S1", 0), (1, "N1", 1)] [(0, 0, 0), (1, 0, 1)] 0
    (by decide) (by decide) (by decide) (by decide)

/-- Counterexample to C5 as stated: submitting the same request twice does
not collapse into a single column — the mask selects the 4 bytes once, the
gathered data is one column wide while two headings are produced, and the
table construction fails with a shape error. -/
theorem bulk_duplicate_requests_shape_error :
    fastExtract gDup namesDup (fun n => n) [(1, "N1", 0), (1, "N1", 0)] 0 =
      .error .shapeErr := by
  decide
